import Mathlib

set_option maxHeartbeats 1000000

/-!
Verification development for the IDM_simulation repository.

The embedding follows `idm/model.py` (classes `Vehicle` and `IDM`) and
`idm/simulation.py` (class `TrafficSimulation`).  Python floats are modelled
as real numbers; Python exceptions that can escape a function are modelled
with `Except PyError`.  The write phase of the simulation loop mutates the
vehicle list in place and reads leader positions through aliased references,
so it is modelled as a fold over a list of per-vehicle jobs that looks the
leader up by index in the evolving list.
-/

/-- Python exceptions that the modelled code can raise. -/
inductive PyError where
  | valueError
  | zeroDivisionError

/-- `idm/model.py`, class `Vehicle`: per-car state. -/
structure Vehicle where
  vehicle_id : ℕ
  position : ℝ
  velocity : ℝ
  acceleration : ℝ
  mass : ℝ

/-- `idm/model.py`, `Vehicle.update` (lines 22-47): integrate one step of
size `dt`; the new velocity is floored at 0, the displacement is computed
from the old velocity and floored at 0, and the acceleration is stored. -/
noncomputable def Vehicle.update (car : Vehicle) (acceleration dt : ℝ) : Vehicle :=
  let old_v := car.velocity
  let new_v1 := old_v + acceleration * dt
  let new_v := if new_v1 < 0 then 0 else new_v1
  let dx1 := old_v * dt + 0.5 * acceleration * dt ^ 2
  let dx := if dx1 < 0 then 0 else dx1
  { car with position := car.position + dx, velocity := new_v, acceleration := acceleration }

/-- `idm/model.py`, class `IDM`: model parameters. -/
structure IDM where
  a_max : ℝ
  b : ℝ
  delta : ℝ
  s0 : ℝ
  T : ℝ
  v0 : ℝ

/-- The constructor defaults of `IDM.__init__` (line 62); `TrafficSimulation`
always uses these (`simulation.py` line 40). -/
noncomputable def IDM.default : IDM :=
  { a_max := 1, b := 1.5, delta := 4, s0 := 2, T := 1.5, v0 := 30 }

/-- `idm/model.py` line 88: the desired dynamic gap `s_star`. -/
noncomputable def IDM.s_star (p : IDM) (ego : Vehicle) (delta_v : ℝ) : ℝ :=
  p.s0 + ego.velocity * p.T + ego.velocity * delta_v / (2 * Real.sqrt (p.a_max * p.b))

/-- `idm/model.py` line 93: the free-flow term `(velocity / v0) ** delta`;
the float power is modelled by the real power. -/
noncomputable def IDM.term1 (p : IDM) (ego : Vehicle) : ℝ :=
  (ego.velocity / p.v0) ^ p.delta

/-- `idm/model.py` line 110: the final clamp of the acceleration into
`[-b, a_max]`. -/
noncomputable def IDM.clamp (p : IDM) (accel : ℝ) : ℝ :=
  max (-p.b) (min p.a_max accel)

/-- `idm/model.py` lines 87-111 in the `lead is None` case: `s` is infinite,
so the interaction term `term2` is `0` (line 103). -/
noncomputable def IDM.freeAccel (p : IDM) (ego : Vehicle) : ℝ :=
  p.clamp (p.a_max * (1 - p.term1 ego - 0))

/-- `idm/model.py` lines 87-111 with a leader at bumper gap `s > 0` and
velocity difference `delta_v`: `term2 = (s_star / s) ** 2` (line 99). -/
noncomputable def IDM.followAccel (p : IDM) (ego : Vehicle) (s delta_v : ℝ) : ℝ :=
  p.clamp (p.a_max * (1 - p.term1 ego - (p.s_star ego delta_v / s) ^ 2))

/-- `idm/model.py`, `IDM.calculate_acceleration` (lines 70-111).

With a leader, `s = lead.position - ego.position - 5.0` (the 5 m car length,
line 81) and `s <= 0` returns `-b` immediately (line 85).  In the real-valued
model every intermediate quantity is finite, so the `np.isfinite` guard of
line 106 never fires; the `except FloatingPointError` handlers of lines 94
and 100 are dead code for plain Python floats, and the only exception that
can actually escape is the `ZeroDivisionError` from `ego.velocity / self.v0`
at line 93 when `v0 == 0`, which no handler catches. -/
noncomputable def IDM.calculate_acceleration (p : IDM) (ego : Vehicle) (lead : Option Vehicle) :
    Except PyError ℝ :=
  match lead with
  | none =>
      if p.v0 = 0 then .error .zeroDivisionError else .ok (p.freeAccel ego)
  | some l =>
      if l.position - ego.position - 5 ≤ 0 then .ok (-p.b)
      else if p.v0 = 0 then .error .zeroDivisionError
      else .ok (p.followAccel ego (l.position - ego.position - 5) (ego.velocity - l.velocity))

/-- The value of `calculate_acceleration` on the non-raising inputs; the
simulation loop only ever calls the law with `IDM.default`, whose
`v0 = 30 ≠ 0`, so there it agrees with `calculate_acceleration`
(lemma `calculate_acceleration_eq_accelValue`). -/
noncomputable def IDM.accelValue (p : IDM) (ego : Vehicle) (lead : Option Vehicle) : ℝ :=
  match lead with
  | none => p.freeAccel ego
  | some l =>
      if l.position - ego.position - 5 ≤ 0 then -p.b
      else p.followAccel ego (l.position - ego.position - 5) (ego.velocity - l.velocity)

/-- One row of `self.data` (`simulation.py` lines 149-157). -/
structure SnapshotRecord where
  time : ℝ
  id : ℕ
  x : ℝ
  y : ℝ
  v : ℝ
  a : ℝ
  mass : ℝ

/-- The configuration fields of `TrafficSimulation.__init__`
(`simulation.py` lines 23-37); `speed_range` is split into its two ends. -/
structure TrafficSimulation where
  num_vehicles : ℤ
  sim_time : ℝ
  dt : ℝ
  road_length : ℝ
  distribution : String
  speed_min : ℝ
  speed_max : ℝ

/-- `TrafficSimulation._initialize_vehicles` (`simulation.py` lines 45-72).
The random draws of `np.random.normal` (positions) and `np.random.uniform`
(speeds) are supplied as oracles `posDraws`/`velDraws`; a run of the Python
program corresponds to some choice of oracles, with every `velDraws i` inside
`[speed_min, speed_max]`.  `np.clip(x, 0.0, L) = min(L, max(x, 0))` and the
positions are then sorted ascending. -/
noncomputable def TrafficSimulation.initialize_vehicles (cfg : TrafficSimulation)
    (posDraws velDraws : ℕ → ℝ) : Except PyError (List Vehicle) :=
  if cfg.num_vehicles ≤ 0 then .error .valueError
  else if cfg.distribution = "uniform" then
    let spacing := cfg.road_length / (cfg.num_vehicles : ℝ)
    let positions := (List.range cfg.num_vehicles.toNat).map (fun i => (i : ℝ) * spacing)
    .ok (positions.enum.map (fun ip => ⟨ip.1, ip.2, velDraws ip.1, 0, 1500⟩))
  else if cfg.distribution = "normal" then
    let positions :=
      ((List.range cfg.num_vehicles.toNat).map
        (fun i => min cfg.road_length (max (posDraws i) 0))).mergeSort (fun x y => decide (x ≤ y))
    .ok (positions.enum.map (fun ip => ⟨ip.1, ip.2, velDraws ip.1, 0, 1500⟩))
  else .error .valueError

/-- The leader scan of the read phase (`simulation.py` lines 104-112),
over the enumerated vehicle list, carrying `(index, gap)` of the best
candidate so far; `none` stands for `min_gap = np.inf`. -/
noncomputable def findLeaderAux (car : Vehicle) :
    List (ℕ × Vehicle) → Option (ℕ × ℝ) → Option (ℕ × ℝ)
  | [], acc => acc
  | (j, other) :: rest, acc =>
    if other.position > car.position then
      let gap := other.position - car.position
      match acc with
      | none => findLeaderAux car rest (some (j, gap))
      | some jg =>
          if gap < jg.2 then findLeaderAux car rest (some (j, gap)) else findLeaderAux car rest acc
    else findLeaderAux car rest acc

/-- The index of `lead_car` in `self.vehicles`: the Python loop keeps a
reference to the chosen vehicle object, modelled by its list index. -/
noncomputable def findLeaderIdx (vs : List Vehicle) (car : Vehicle) : Option ℕ :=
  (findLeaderAux car vs.enum none).map Prod.fst

/-- The read phase (`simulation.py` lines 99-115): for every vehicle, the
leader and the IDM acceleration, computed before any vehicle is mutated. -/
noncomputable def readPhase (p : IDM) (vs : List Vehicle) : List (ℕ × ℝ × Option ℕ) :=
  vs.enum.map (fun ic =>
    let lead := findLeaderIdx vs ic.2
    (ic.1, p.accelValue ic.2 (lead.bind (fun j => vs.get? j)), lead))

/-- The write-phase body for one vehicle (`simulation.py` lines 118-146):
kinematics from the old velocity, both the velocity and the raw displacement
floored at 0, and the displacement replaced by the gap
`lead.position - car.position - 5.0` whenever it exceeds it.  The leader
position is read from the current (partially updated) list `vs`. -/
noncomputable def writeCar (dt : ℝ) (vs : List Vehicle) (car : Vehicle) (a : ℝ)
    (lead : Option ℕ) : Vehicle :=
  let gap? := lead.bind (fun j => (vs.get? j).map (fun l => l.position - car.position - 5))
  let old_v := car.velocity
  let new_v1 := old_v + a * dt
  let new_v := if new_v1 < 0 then 0 else new_v1
  let dx1 := old_v * dt + 0.5 * a * dt ^ 2
  let dx2 := if dx1 < 0 then 0 else dx1
  let dx := match gap? with
    | none => dx2
    | some gap => if dx2 > gap then gap else dx2
  { car with position := car.position + dx, velocity := new_v, acceleration := a }

/-- The write phase (`simulation.py` lines 117-157): vehicles updated in
list order, one snapshot row appended per vehicle. -/
noncomputable def writeLoop (dt t : ℝ) :
    List (ℕ × ℝ × Option ℕ) → List Vehicle → List SnapshotRecord →
      List Vehicle × List SnapshotRecord
  | [], vs, data => (vs, data)
  | job :: rest, vs, data =>
    match vs.get? job.1 with
    | none => writeLoop dt t rest vs data
    | some car =>
      let car' := writeCar dt vs car job.2.1 job.2.2
      writeLoop dt t rest (vs.set job.1 car')
        (data ++ [⟨t, car'.vehicle_id, car'.position, 0, car'.velocity, car'.acceleration,
          car'.mass⟩])

/-- One full simulation step at time `t`: read phase then write phase. -/
noncomputable def simStep (p : IDM) (dt t : ℝ) (vs : List Vehicle)
    (data : List SnapshotRecord) : List Vehicle × List SnapshotRecord :=
  writeLoop dt t (readPhase p vs) vs data

/-- The step loop `for t in range(time_steps)` (`simulation.py` line 96),
with `current_time = t * self.dt`. -/
noncomputable def runFrom (p : IDM) (dt : ℝ) :
    ℕ → ℕ → List Vehicle × List SnapshotRecord → List Vehicle × List SnapshotRecord
  | _, 0, st => st
  | k, n + 1, st => runFrom p dt (k + 1) n (simStep p dt ((k : ℝ) * dt) st.1 st.2)

/-- Python `int(x)` on a float: truncation toward zero. -/
noncomputable def pyInt (x : ℝ) : ℤ :=
  if x < 0 then -⌊-x⌋ else ⌊x⌋

/-- `TrafficSimulation.run` (`simulation.py` lines 74-157), started on the
vehicle list built by `initialize_vehicles` and with `self.data = []`.
`time_steps = int(self.sim_time / self.dt)` raises `ZeroDivisionError` when
`dt == 0`; a negative step count makes `range` empty. -/
noncomputable def TrafficSimulation.run (cfg : TrafficSimulation) (vs : List Vehicle) :
    Except PyError (List Vehicle × List SnapshotRecord) :=
  if cfg.dt = 0 then .error .zeroDivisionError
  else .ok (runFrom IDM.default cfg.dt 0 (pyInt (cfg.sim_time / cfg.dt)).toNat (vs, []))

/-! ### Concrete scenarios used as witnesses and counterexamples.
Each configuration uses `distribution = "uniform"` (deterministic positions)
and `speed_min = speed_max`, so `np.random.uniform` returns that single
value and the whole run is deterministic. -/

/-- The draw oracle of a run whose speed range is `(0.0, 0.0)`. -/
noncomputable def draw0 : ℕ → ℝ := fun _ => 0

/-- The draw oracle of a run whose speed range is `(30.0, 30.0)`. -/
noncomputable def draw30 : ℕ → ℝ := fun _ => 30

/-- Two stationary vehicles on a 9 m road: uniform spacing `4.5 < 5`. -/
noncomputable def cfg1 : TrafficSimulation := ⟨2, 1, 1, 9, "uniform", 0, 0⟩

noncomputable def vehs1 : List Vehicle := [⟨0, 0, 0, 0, 1500⟩, ⟨1, 4.5, 0, 0, 1500⟩]

noncomputable def vehs1' : List Vehicle := [⟨0, -0.5, 0, -1.5, 1500⟩, ⟨1, 5, 1, 1, 1500⟩]

noncomputable def data1' : List SnapshotRecord :=
  [⟨0, 0, -0.5, 0, 0, -1.5, 1500⟩, ⟨0, 1, 5, 0, 1, 1, 1500⟩]

/-- Two fast vehicles on a 12 m road: the anti-overtake clamp binds for the
follower on the first step. -/
noncomputable def cfg2 : TrafficSimulation := ⟨2, 1, 1, 12, "uniform", 30, 30⟩

noncomputable def vehs2 : List Vehicle := [⟨0, 0, 30, 0, 1500⟩, ⟨1, 6, 30, 0, 1500⟩]

noncomputable def vehA2' : Vehicle := ⟨0, 1, 28.5, -1.5, 1500⟩

noncomputable def vehB2' : Vehicle := ⟨1, 36, 30, 0, 1500⟩

noncomputable def vehs2' : List Vehicle := [vehA2', vehB2']

noncomputable def data2' : List SnapshotRecord :=
  [⟨0, 0, 1, 0, 28.5, -1.5, 1500⟩, ⟨0, 1, 36, 0, 30, 0, 1500⟩]

/-- A single stationary vehicle on a 100 m road. -/
noncomputable def cfg3 : TrafficSimulation := ⟨1, 1, 1, 100, "uniform", 0, 0⟩

noncomputable def vehs3 : List Vehicle := [⟨0, 0, 0, 0, 1500⟩]

noncomputable def vehs3' : List Vehicle := [⟨0, 0.5, 1, 1, 1500⟩]

noncomputable def data3' : List SnapshotRecord := [⟨0, 0, 0.5, 0, 1, 1, 1500⟩]

/-- Two stationary vehicles on an 8 m road: uniform spacing `4 < 5`. -/
noncomputable def cfg4 : TrafficSimulation := ⟨2, 1, 1, 8, "uniform", 0, 0⟩

noncomputable def vehs4 : List Vehicle := [⟨0, 0, 0, 0, 1500⟩, ⟨1, 4, 0, 0, 1500⟩]

noncomputable def vehs4' : List Vehicle := [⟨0, -1, 0, -1.5, 1500⟩, ⟨1, 4.5, 1, 1, 1500⟩]

noncomputable def data4' : List SnapshotRecord :=
  [⟨0, 0, -1, 0, 0, -1.5, 1500⟩, ⟨0, 1, 4.5, 0, 1, 1, 1500⟩]

/-- IDM parameters with `v0 = 0` and the other constructor defaults. -/
noncomputable def pz5 : IDM := ⟨1, 1.5, 4, 2, 1.5, 0⟩

/-- An ego vehicle travelling at 20 m/s. -/
noncomputable def ego5 : Vehicle := ⟨0, 0, 20, 0, 1500⟩

/-- Ego and leader 4 m apart: effective gap `4 - 5 = -1 ≤ 0`. -/
noncomputable def veh6e : Vehicle := ⟨0, 0, 10, 0, 1500⟩

noncomputable def veh6l : Vehicle := ⟨1, 4, 10, 0, 1500⟩

/-- Ego at 20 m/s with a leader 100 m ahead (effective gap `95 > 0`). -/
noncomputable def ego7 : Vehicle := ⟨7, 0, 20, 0, 1500⟩

noncomputable def lead7 : Vehicle := ⟨8, 100, 0, 0, 1500⟩

/-- Two vehicles 6 m apart for the leader-lookup witness. -/
noncomputable def veh9a : Vehicle := ⟨0, 0, 0, 0, 1500⟩

noncomputable def veh9b : Vehicle := ⟨1, 6, 0, 0, 1500⟩

/-- A vehicle at position 3 with velocity 2 for the update-refinement witness. -/
noncomputable def car10 : Vehicle := ⟨0, 3, 2, 0, 1500⟩

/-- A negative time step: `int(60 / -0.1) = -600`, so `range` is empty. -/
noncomputable def cfg8 : TrafficSimulation := ⟨2, 60, -0.1, 1000, "uniform", 0, 0⟩

noncomputable def vehs8 : List Vehicle := [⟨0, 0, 0, 0, 1500⟩, ⟨1, 500, 0, 0, 1500⟩]

/-- An unknown distribution kind. -/
noncomputable def cfg8bad : TrafficSimulation := ⟨2, 60, 0.1, 1000, "exponential", 0, 0⟩

/-- A zero time step. -/
noncomputable def cfg8zero : TrafficSimulation := ⟨2, 60, 0, 1000, "uniform", 0, 0⟩

lemma calculate_acceleration_eq_accelValue (p : IDM) (ego : Vehicle) (lead : Option Vehicle)
    (h : p.v0 ≠ 0) : p.calculate_acceleration ego lead = .ok (p.accelValue ego lead) := by
  cases lead with
  | none => simp [IDM.calculate_acceleration, IDM.accelValue, h]
  | some l =>
      by_cases hs : l.position - ego.position - 5 ≤ 0 <;>
        simp [IDM.calculate_acceleration, IDM.accelValue, h, hs]

/-! ### Correctness of the leader scan -/

lemma findLeaderAux_none_iff (car : Vehicle) :
    ∀ (rem : List (ℕ × Vehicle)) (acc : Option (ℕ × ℝ)),
      findLeaderAux car rem acc = none ↔
        (acc = none ∧ ∀ q ∈ rem, ¬ car.position < q.2.position) := by
  intro rem
  induction rem with
  | nil => intro acc; simp [findLeaderAux]
  | cons hd rest ih =>
      intro acc
      obtain ⟨j, other⟩ := hd
      by_cases hpos : other.position > car.position
      · cases acc with
        | none =>
            rw [show findLeaderAux car ((j, other) :: rest) none =
                findLeaderAux car rest (some (j, other.position - car.position)) by
              simp [findLeaderAux, hpos]]
            rw [ih]
            simp [hpos]
        | some jg =>
            by_cases hlt : other.position - car.position < jg.2
            · rw [show findLeaderAux car ((j, other) :: rest) (some jg) =
                  findLeaderAux car rest (some (j, other.position - car.position)) by
                simp [findLeaderAux, hpos, hlt]]
              rw [ih]
              simp [hpos]
            · rw [show findLeaderAux car ((j, other) :: rest) (some jg) =
                  findLeaderAux car rest (some jg) by
                simp [findLeaderAux, hpos, hlt]]
              rw [ih]
              simp [hpos]
      · rw [show findLeaderAux car ((j, other) :: rest) acc = findLeaderAux car rest acc by
          simp [findLeaderAux, hpos]]
        rw [ih]
        constructor
        · rintro ⟨h1, h2⟩
          refine ⟨h1, ?_⟩
          intro q hq
          rcases List.mem_cons.mp hq with h | h
          · subst h; simpa using hpos
          · exact h2 q h
        · rintro ⟨h1, h2⟩
          exact ⟨h1, fun q hq => h2 q (List.mem_cons_of_mem _ hq)⟩

lemma findLeaderAux_some_spec (car : Vehicle) :
    ∀ (rem : List (ℕ × Vehicle)) (acc : Option (ℕ × ℝ)) (j : ℕ) (g : ℝ),
      findLeaderAux car rem acc = some (j, g) →
        ((acc = some (j, g)) ∨
          ∃ o, (j, o) ∈ rem ∧ car.position < o.position ∧ g = o.position - car.position) ∧
        (∀ j' o, (j', o) ∈ rem → car.position < o.position → g ≤ o.position - car.position) ∧
        (∀ j0 g0, acc = some (j0, g0) → g ≤ g0) := by
  intro rem
  induction rem with
  | nil =>
      intro acc j g h
      simp only [findLeaderAux] at h
      refine ⟨Or.inl h, by simp, ?_⟩
      rintro j0 g0 rfl
      simp_all
  | cons hd rest ih =>
      intro acc j g h
      obtain ⟨jh, other⟩ := hd
      by_cases hpos : other.position > car.position
      · -- the candidate gap of the head element
        set gp := other.position - car.position with hgp
        cases acc with
        | none =>
            rw [show findLeaderAux car ((jh, other) :: rest) none =
                findLeaderAux car rest (some (jh, gp)) by simp [findLeaderAux, hpos, hgp]] at h
            obtain ⟨horig, hmin, hacc⟩ := ih (some (jh, gp)) j g h
            have hle : g ≤ gp := hacc jh gp rfl
            refine ⟨?_, ?_, ?_⟩
            · rcases horig with heq | ⟨o, ho, hop, hg⟩
              · have h2 := Option.some.inj heq
                injection h2 with hj hg2
                subst hj
                subst hg2
                exact Or.inr ⟨other, List.mem_cons_self _ _, hpos, rfl⟩
              · exact Or.inr ⟨o, List.mem_cons_of_mem _ ho, hop, hg⟩
            · intro j' o ho hop
              rcases List.mem_cons.mp ho with hh | hh
              · have : o = other := by injection hh
                subst this
                exact hle
              · exact hmin j' o hh hop
            · rintro j0 g0 h0; cases h0
        | some jg =>
            obtain ⟨j0, g0⟩ := jg
            by_cases hlt : gp < g0
            · rw [show findLeaderAux car ((jh, other) :: rest) (some (j0, g0)) =
                  findLeaderAux car rest (some (jh, gp)) by
                simp [findLeaderAux, hpos, hgp, hlt]] at h
              obtain ⟨horig, hmin, hacc⟩ := ih (some (jh, gp)) j g h
              have hle : g ≤ gp := hacc jh gp rfl
              refine ⟨?_, ?_, ?_⟩
              · rcases horig with heq | ⟨o, ho, hop, hg⟩
                · have h2 := Option.some.inj heq
                  injection h2 with hj hg2
                  subst hj
                  subst hg2
                  exact Or.inr ⟨other, List.mem_cons_self _ _, hpos, rfl⟩
                · exact Or.inr ⟨o, List.mem_cons_of_mem _ ho, hop, hg⟩
              · intro j' o ho hop
                rcases List.mem_cons.mp ho with hh | hh
                · have : o = other := by injection hh
                  subst this
                  exact hle
                · exact hmin j' o hh hop
              · rintro ja ga hja
                have h2 := Option.some.inj hja
                injection h2 with hj hg2
                subst hg2
                exact le_trans hle (le_of_lt hlt)
            · rw [show findLeaderAux car ((jh, other) :: rest) (some (j0, g0)) =
                  findLeaderAux car rest (some (j0, g0)) by
                simp [findLeaderAux, hpos, hgp, hlt]] at h
              obtain ⟨horig, hmin, hacc⟩ := ih (some (j0, g0)) j g h
              have hle : g ≤ g0 := hacc j0 g0 rfl
              refine ⟨?_, ?_, hacc⟩
              · rcases horig with heq | ⟨o, ho, hop, hg⟩
                · exact Or.inl heq
                · exact Or.inr ⟨o, List.mem_cons_of_mem _ ho, hop, hg⟩
              · intro j' o ho hop
                rcases List.mem_cons.mp ho with hh | hh
                · have : o = other := by injection hh
                  subst this
                  exact le_trans hle (not_lt.mp hlt)
                · exact hmin j' o hh hop
      · rw [show findLeaderAux car ((jh, other) :: rest) acc = findLeaderAux car rest acc by
          simp [findLeaderAux, hpos]] at h
        obtain ⟨horig, hmin, hacc⟩ := ih acc j g h
        refine ⟨?_, ?_, hacc⟩
        · rcases horig with heq | ⟨o, ho, hop, hg⟩
          · exact Or.inl heq
          · exact Or.inr ⟨o, List.mem_cons_of_mem _ ho, hop, hg⟩
        · intro j' o ho hop
          rcases List.mem_cons.mp ho with hh | hh
          · have : o = other := by injection hh
            subst this
            exact absurd hop hpos
          · exact hmin j' o hh hop

lemma findLeaderIdx_none_iff (vs : List Vehicle) (car : Vehicle) :
    findLeaderIdx vs car = none ↔ ∀ v ∈ vs, ¬ car.position < v.position := by
  unfold findLeaderIdx
  rw [Option.map_eq_none', findLeaderAux_none_iff]
  constructor
  · rintro ⟨-, h⟩ v hv
    obtain ⟨i, hi⟩ := List.mem_iff_get?.mp hv
    exact h (i, v) (List.mem_enum_iff_get?.mpr hi)
  · intro h
    exact ⟨rfl, fun q hq => h q.2 (List.get?_mem (List.mem_enum_iff_get?.mp hq))⟩

lemma findLeaderIdx_some_spec (vs : List Vehicle) (car : Vehicle) (j : ℕ)
    (h : findLeaderIdx vs car = some j) :
    ∃ l, vs.get? j = some l ∧ car.position < l.position ∧
      ∀ v ∈ vs, car.position < v.position → l.position ≤ v.position := by
  unfold findLeaderIdx at h
  obtain ⟨⟨j', g⟩, haux, hj⟩ := Option.map_eq_some'.mp h
  cases hj
  obtain ⟨horig, hmin, -⟩ := findLeaderAux_some_spec car vs.enum none j' g haux
  rcases horig with heq | ⟨o, ho, hop, hg⟩
  · cases heq
  · refine ⟨o, List.mem_enum_iff_get?.mp ho, hop, ?_⟩
    intro v hv hvpos
    obtain ⟨i, hi⟩ := List.mem_iff_get?.mp hv
    have := hmin i v (List.mem_enum_iff_get?.mpr hi) hvpos
    rw [hg] at this
    linarith

/-! ### Basic facts about the write-phase body -/

lemma writeCar_fields (dt : ℝ) (vs : List Vehicle) (car : Vehicle) (a : ℝ) (lead : Option ℕ) :
    (writeCar dt vs car a lead).vehicle_id = car.vehicle_id ∧
    (writeCar dt vs car a lead).mass = car.mass ∧
    (writeCar dt vs car a lead).acceleration = a ∧
    (writeCar dt vs car a lead).velocity =
      (if car.velocity + a * dt < 0 then 0 else car.velocity + a * dt) := by
  refine ⟨rfl, rfl, rfl, rfl⟩

lemma writeCar_velocity_nonneg (dt : ℝ) (vs : List Vehicle) (car : Vehicle) (a : ℝ)
    (lead : Option ℕ) : 0 ≤ (writeCar dt vs car a lead).velocity := by
  show (0:ℝ) ≤ (if car.velocity + a * dt < 0 then 0 else car.velocity + a * dt)
  split
  · exact le_refl 0
  · rename_i h
    exact not_lt.mp h

lemma writeCar_position_none (dt : ℝ) (vs : List Vehicle) (car : Vehicle) (a : ℝ) :
    car.position ≤ (writeCar dt vs car a none).position := by
  show car.position ≤ car.position +
    (if car.velocity * dt + 0.5 * a * dt ^ 2 < 0 then 0 else car.velocity * dt + 0.5 * a * dt ^ 2)
  split
  · linarith
  · rename_i h
    linarith [not_lt.mp h]

lemma writeCar_position_some (dt : ℝ) (vs : List Vehicle) (car : Vehicle) (a : ℝ) (j : ℕ)
    (l : Vehicle) (hl : vs.get? j = some l) (hgap : 0 ≤ l.position - car.position - 5) :
    car.position ≤ (writeCar dt vs car a (some j)).position ∧
    (writeCar dt vs car a (some j)).position ≤ l.position - 5 := by
  have hg : (writeCar dt vs car a (some j)).position =
      car.position +
        (let dx2 := if car.velocity * dt + 0.5 * a * dt ^ 2 < 0 then 0
            else car.velocity * dt + 0.5 * a * dt ^ 2
         if dx2 > l.position - car.position - 5 then l.position - car.position - 5 else dx2) := by
    have hl' : vs[j]? = some l := by simpa [List.get?_eq_getElem?] using hl
    simp [writeCar, hl']
  rw [hg]
  set dx1 := car.velocity * dt + 0.5 * a * dt ^ 2 with hdx1
  by_cases h1 : dx1 < 0
  · simp only [if_pos h1]
    by_cases h2 : (0:ℝ) > l.position - car.position - 5
    · refine ⟨?_, ?_⟩ <;> simp only [if_pos h2] <;> linarith
    · refine ⟨?_, ?_⟩ <;> simp only [if_neg h2] <;> linarith [not_lt.mp h2]
  · simp only [if_neg h1]
    by_cases h2 : dx1 > l.position - car.position - 5
    · refine ⟨?_, ?_⟩ <;> simp only [if_pos h2] <;> linarith
    · refine ⟨?_, ?_⟩
      · simp only [if_neg h2]
        linarith [not_lt.mp h1]
      · simp only [if_neg h2]
        linarith [not_lt.mp h2]

lemma get?_set_self {α : Type} (l : List α) (n : ℕ) (a : α) (h : n < l.length) :
    (l.set n a).get? n = some a := by
  simp [List.get?_eq_getElem?, List.getElem?_set_self', h, Option.map_eq_some']

/-- The write phase never decreases a position, leaves untouched entries
unchanged, and drives every processed vehicle to at most `5` metres behind
its read-phase leader, provided every vehicle with a leader starts at least
`5` metres behind it.  `vs0` is the frozen read-phase snapshot; `vs` the
evolving list. -/
lemma writeLoop_invariant (dt t : ℝ) (vs0 : List Vehicle)
    (hsep : ∀ i j ci cj, vs0.get? i = some ci → findLeaderIdx vs0 ci = some j →
      vs0.get? j = some cj → ci.position + 5 ≤ cj.position) :
    ∀ (jobs : List (ℕ × ℝ × Option ℕ)) (vs : List Vehicle) (data : List SnapshotRecord),
      (jobs.map (fun x => x.1)).Nodup →
      (∀ x ∈ jobs, vs.get? x.1 = vs0.get? x.1) →
      (∀ x ∈ jobs, ∃ c, vs0.get? x.1 = some c ∧ x.2.2 = findLeaderIdx vs0 c) →
      (∀ k c0, vs0.get? k = some c0 → ∃ ck, vs.get? k = some ck ∧ c0.position ≤ ck.position) →
      ((∀ k ck, vs.get? k = some ck → (∀ x ∈ jobs, x.1 ≠ k) →
          (writeLoop dt t jobs vs data).1.get? k = some ck) ∧
       (∀ k ck, vs.get? k = some ck →
          ∃ ck', (writeLoop dt t jobs vs data).1.get? k = some ck' ∧
            ck.position ≤ ck'.position) ∧
       (∀ x ∈ jobs, ∀ c0 j cj', vs0.get? x.1 = some c0 → findLeaderIdx vs0 c0 = some j →
          (writeLoop dt t jobs vs data).1.get? j = some cj' →
          ∃ ci', (writeLoop dt t jobs vs data).1.get? x.1 = some ci' ∧
            ci'.position ≤ cj'.position - 5)) := by
  intro jobs
  induction jobs with
  | nil =>
      intro vs data _ _ _ _
      refine ⟨?_, ?_, ?_⟩
      · intro k ck hk _
        simpa [writeLoop] using hk
      · intro k ck hk
        exact ⟨ck, by simpa [writeLoop] using hk, le_refl _⟩
      · intro x hx
        simp at hx
  | cons x rest ih =>
      intro vs data hnodup hpend hjobs hmono
      obtain ⟨i, a, l⟩ := x
      obtain ⟨c0, hc0, hl⟩ := hjobs (i, a, l) (List.mem_cons_self _ _)
      have hvi : vs.get? i = some c0 := (hpend (i, a, l) (List.mem_cons_self _ _)).trans hc0
      -- the head of the job list is processed with the current list `vs`
      set car' := writeCar dt vs c0 a l with hcar'
      have hstep : writeLoop dt t ((i, a, l) :: rest) vs data =
          writeLoop dt t rest (vs.set i car')
            (data ++ [⟨t, car'.vehicle_id, car'.position, 0, car'.velocity,
              car'.acceleration, car'.mass⟩]) := by
        simp only [writeLoop, hvi]
      have hnotin : ∀ y ∈ rest, y.1 ≠ i := by
        intro y hy
        have h1 : i ∉ rest.map (fun x => x.1) := by
          have h2 : (List.map (fun x => x.1) ((i, a, l) :: rest)).Nodup := hnodup
          rw [List.map_cons] at h2
          exact (List.nodup_cons.mp h2).1
        intro hcontra
        exact h1 (hcontra ▸ List.mem_map_of_mem _ hy)
      -- the write-time gap to the read-phase leader is nonnegative
      have hgapcur : ∀ jl lj, l = some jl → vs.get? jl = some lj →
          0 ≤ lj.position - c0.position - 5 := by
        intro jl lj hjl hlj
        obtain ⟨l0, hl0, hl0pos, -⟩ := findLeaderIdx_some_spec vs0 c0 jl (hjl ▸ hl.symm)
        obtain ⟨cjl, hcjl, hcjlpos⟩ := hmono jl l0 hl0
        have : cjl = lj := by
          rw [hcjl] at hlj
          exact Option.some.inj hlj
        subst this
        have := hsep i jl c0 l0 hc0 (hjl ▸ hl.symm) hl0
        linarith
      have hmono0 : c0.position ≤ car'.position := by
        cases hlcase : l with
        | none => rw [hcar', hlcase]; exact writeCar_position_none dt vs c0 a
        | some jl =>
            obtain ⟨lj, hlj⟩ : ∃ lj, vs.get? jl = some lj := by
              obtain ⟨l0, hl0, -, -⟩ := findLeaderIdx_some_spec vs0 c0 jl (hlcase ▸ hl.symm)
              obtain ⟨cjl, hcjl, -⟩ := hmono jl l0 hl0
              exact ⟨cjl, hcjl⟩
            rw [hcar', hlcase]
            exact (writeCar_position_some dt vs c0 a jl lj hlj
              (hgapcur jl lj hlcase hlj)).1
      have hilen : i < vs.length := (List.get?_eq_some.mp hvi).1
      -- hypotheses of the induction for the tail
      have hnodup' : (rest.map (fun x => x.1)).Nodup := by
        have h2 : (List.map (fun x => x.1) ((i, a, l) :: rest)).Nodup := hnodup
        rw [List.map_cons] at h2
        exact (List.nodup_cons.mp h2).2
      have hpend' : ∀ y ∈ rest, (vs.set i car').get? y.1 = vs0.get? y.1 := by
        intro y hy
        rw [List.get?_set_ne _ _ (fun h => hnotin y hy h.symm)]
        exact hpend y (List.mem_cons_of_mem _ hy)
      have hjobs' : ∀ y ∈ rest, ∃ c, vs0.get? y.1 = some c ∧ y.2.2 = findLeaderIdx vs0 c :=
        fun y hy => hjobs y (List.mem_cons_of_mem _ hy)
      have hmono' : ∀ k c0k, vs0.get? k = some c0k →
          ∃ ck, (vs.set i car').get? k = some ck ∧ c0k.position ≤ ck.position := by
        intro k c0k hk
        by_cases hki : k = i
        · subst hki
          have : c0k = c0 := Option.some.inj (hk.symm.trans hc0)
          subst this
          exact ⟨car', get?_set_self vs k car' hilen, hmono0⟩
        · obtain ⟨ck, hck, hle⟩ := hmono k c0k hk
          exact ⟨ck, by rw [List.get?_set_ne _ _ (fun h => hki h.symm)]; exact hck, hle⟩
      obtain ⟨P1, P2, P3⟩ := ih (vs.set i car')
        (data ++ [⟨t, car'.vehicle_id, car'.position, 0, car'.velocity,
          car'.acceleration, car'.mass⟩]) hnodup' hpend' hjobs' hmono'
      rw [hstep]
      refine ⟨?_, ?_, ?_⟩
      · -- untouched entries survive
        intro k ck hk hout
        have hki : i ≠ k := hout (i, a, l) (List.mem_cons_self _ _)
        exact P1 k ck (by rw [List.get?_set_ne _ _ hki]; exact hk)
          (fun y hy => hout y (List.mem_cons_of_mem _ hy))
      · -- positions never decrease
        intro k ck hk
        by_cases hki : k = i
        · subst hki
          have : ck = c0 := Option.some.inj (hk.symm.trans hvi)
          subst this
          obtain ⟨ck', hck', hle⟩ := P2 k car' (get?_set_self vs k car' hilen)
          exact ⟨ck', hck', le_trans hmono0 hle⟩
        · obtain ⟨ck', hck', hle⟩ := P2 k ck
            (by rw [List.get?_set_ne _ _ (fun h => hki h.symm)]; exact hk)
          exact ⟨ck', hck', hle⟩
      · -- processed vehicles end behind their read-phase leader
        intro y hy c0y jy cj' hc0y hleady hcj'
        rcases List.mem_cons.mp hy with hhead | htail
        · -- `y` is the head job
          subst hhead
          have hcc : c0y = c0 := Option.some.inj (hc0y.symm.trans hc0)
          rw [hcc] at hleady
          have hly : l = some jy := hl.trans hleady
          obtain ⟨l0, hl0, hl0pos, -⟩ := findLeaderIdx_some_spec vs0 c0 jy hleady
          have hji : jy ≠ i := by
            intro hcontra
            subst hcontra
            have : l0 = c0 := Option.some.inj (hl0.symm.trans hc0)
            subst this
            exact lt_irrefl _ hl0pos
          obtain ⟨cjl, hcjl, hcjlpos⟩ := hmono jy l0 hl0
          have hcarle : car'.position ≤ cjl.position - 5 := by
            rw [hcar', hly]
            exact (writeCar_position_some dt vs c0 a jy cjl hcjl
              (hgapcur jy cjl hly hcjl)).2
          -- the head's entry is never touched again
          have hres : (writeLoop dt t rest (vs.set i car') (data ++
              [⟨t, car'.vehicle_id, car'.position, 0, car'.velocity, car'.acceleration,
                car'.mass⟩])).1.get? i = some car' := by
            exact P1 i car' (get?_set_self vs i car' hilen) hnotin
          -- the leader's position can only grow
          obtain ⟨cj'', hcj'', hcjle⟩ := P2 jy cjl
            (by rw [List.get?_set_ne _ _ (fun h => hji h.symm)]; exact hcjl)
          have : cj'' = cj' := Option.some.inj (hcj''.symm.trans hcj')
          subst this
          exact ⟨car', hres, by linarith⟩
        · exact P3 y htail c0y jy cj' hc0y hleady hcj'

lemma readPhase_map_fst (p : IDM) (vs : List Vehicle) :
    (readPhase p vs).map (fun x => x.1) = List.range vs.length := by
  unfold readPhase
  rw [List.map_map]
  have hcomp : ((fun x : ℕ × ℝ × Option ℕ => x.1) ∘
      (fun ic : ℕ × Vehicle =>
        (ic.1, p.accelValue ic.2 ((findLeaderIdx vs ic.2).bind (fun j => vs.get? j)),
          findLeaderIdx vs ic.2))) = Prod.fst := by
    funext ic
    rfl
  rw [hcomp, List.enum_map_fst]

lemma readPhase_mem (p : IDM) (vs : List Vehicle) (x : ℕ × ℝ × Option ℕ)
    (hx : x ∈ readPhase p vs) : ∃ c, vs.get? x.1 = some c ∧ x.2.2 = findLeaderIdx vs c := by
  unfold readPhase at hx
  obtain ⟨⟨i, c⟩, hic, rfl⟩ := List.mem_map.mp hx
  exact ⟨c, List.mem_enum_iff_get?.mp hic, rfl⟩

lemma readPhase_get (p : IDM) (vs : List Vehicle) (i : ℕ) (c : Vehicle)
    (h : vs.get? i = some c) :
    (i, p.accelValue c ((findLeaderIdx vs c).bind (fun j => vs.get? j)), findLeaderIdx vs c)
      ∈ readPhase p vs := by
  unfold readPhase
  exact List.mem_map.mpr ⟨(i, c), List.mem_enum_iff_get?.mpr h, rfl⟩

/-- C1, amended: with the 5 m car length but without the `s0` margin, and
under the precondition that at the start of the step every vehicle with a
leader is at least `car_length = 5` behind it.  After the write phase of any
step whose starting snapshot `vs` satisfies this separation, every vehicle
`A = ci` whose read-phase leader is `B` (index `j`) ends the step at
`position ≤ B.position - 5`, where `B`'s position is its value after the full
write phase.  (The code clamps to `lead.position - 5.0`, `simulation.py`
lines 126 and 139-141; the `s0` term of the claim is not enforced, and a
starting snapshot with a gap below `5` can even move a vehicle backwards
past this bound.) -/
theorem simStep_no_overlap (p : IDM) (dt t : ℝ) (vs : List Vehicle)
    (data : List SnapshotRecord)
    (hsep : ∀ i j ci cj, vs.get? i = some ci → findLeaderIdx vs ci = some j →
      vs.get? j = some cj → ci.position + 5 ≤ cj.position)
    (i j : ℕ) (ci ci' cj' : Vehicle)
    (hi : vs.get? i = some ci) (hlead : findLeaderIdx vs ci = some j)
    (hi' : (simStep p dt t vs data).1.get? i = some ci')
    (hj' : (simStep p dt t vs data).1.get? j = some cj') :
    ci'.position ≤ cj'.position - 5 := by
  obtain ⟨-, -, P3⟩ := writeLoop_invariant dt t vs hsep (readPhase p vs) vs data
    (by rw [readPhase_map_fst]; exact List.nodup_range _)
    (fun x _ => rfl)
    (fun x hx => readPhase_mem p vs x hx)
    (fun k c0 hk => ⟨c0, hk, le_refl _⟩)
  obtain ⟨ci'', hci'', hle⟩ := P3
    (i, p.accelValue ci ((findLeaderIdx vs ci).bind (fun j => vs.get? j)), findLeaderIdx vs ci)
    (readPhase_get p vs i ci hi) ci j cj' hi hlead hj'
  have : ci'' = ci' := Option.some.inj (hci''.symm.trans hi')
  subst this
  exact hle

/-! ### The acceleration law: range, emergency braking, and the v0 = 0 fault -/

lemma clamp_mem (p : IDM) (hab : -p.b ≤ p.a_max) (x : ℝ) :
    -p.b ≤ p.clamp x ∧ p.clamp x ≤ p.a_max := by
  unfold IDM.clamp
  exact ⟨le_max_left _ _, max_le hab (min_le_left _ _)⟩

/-- C5, amended: for every ego state, every leader state or none, and every
parameter set with `a_max > 0`, `b > 0` **and `v0 ≠ 0`**,
`calculate_acceleration` returns a value `a` with `-b ≤ a ≤ a_max`.  The
restriction `v0 ≠ 0` is forced: with `v0 = 0` the free-flow term divides by
zero and the uncaught `ZeroDivisionError` escapes instead of a value (see
the counterexample). -/
theorem calculate_acceleration_range (p : IDM) (ego : Vehicle) (lead : Option Vehicle)
    (ha : 0 < p.a_max) (hb : 0 < p.b) (hv0 : p.v0 ≠ 0) :
    ∃ a, p.calculate_acceleration ego lead = .ok a ∧ -p.b ≤ a ∧ a ≤ p.a_max := by
  have hab : -p.b ≤ p.a_max := by linarith
  cases lead with
  | none =>
      refine ⟨p.freeAccel ego, by simp [IDM.calculate_acceleration, hv0], ?_, ?_⟩
      · exact (clamp_mem p hab _).1
      · exact (clamp_mem p hab _).2
  | some l =>
      by_cases hs : l.position - ego.position - 5 ≤ 0
      · exact ⟨-p.b, by simp [IDM.calculate_acceleration, hs], le_refl _, hab⟩
      · refine ⟨p.followAccel ego (l.position - ego.position - 5) (ego.velocity - l.velocity),
          by simp [IDM.calculate_acceleration, hs, hv0], ?_, ?_⟩
        · exact (clamp_mem p hab _).1
        · exact (clamp_mem p hab _).2

/-- C5, counterexample: the parameter set `pz5` has `a_max = 1 > 0` and
`b = 1.5 > 0`, yet with `v0 = 0` the call raises `ZeroDivisionError`
(`ego.velocity / self.v0` at `model.py` line 93; the `except` clause there
only catches `FloatingPointError`), so no value in `[-b, a_max]` is
returned. -/
theorem calculate_acceleration_range_cex :
    0 < pz5.a_max ∧ 0 < pz5.b ∧
    pz5.calculate_acceleration ego5 none = .error .zeroDivisionError := by
  refine ⟨by norm_num [pz5], by norm_num [pz5], ?_⟩
  simp [IDM.calculate_acceleration, pz5]

theorem calculate_acceleration_range_witness :
    ∃ a, IDM.default.calculate_acceleration ego5 none = .ok a ∧
      -IDM.default.b ≤ a ∧ a ≤ IDM.default.a_max :=
  calculate_acceleration_range IDM.default ego5 none (by norm_num [IDM.default])
    (by norm_num [IDM.default]) (by norm_num [IDM.default])

/-- C6: whenever the effective gap `s = lead.position - ego.position - 5`
is `≤ 0`, `calculate_acceleration` returns exactly `-b` (the early return of
`model.py` line 85), for every parameter set. -/
theorem emergency_brake_on_overlap (p : IDM) (ego l : Vehicle)
    (h : l.position - ego.position - 5 ≤ 0) :
    p.calculate_acceleration ego (some l) = .ok (-p.b) := by
  simp [IDM.calculate_acceleration, h]

theorem emergency_brake_on_overlap_witness :
    (veh6l.position - veh6e.position - 5 ≤ 0) ∧
    IDM.default.calculate_acceleration veh6e (some veh6l) = .ok (-IDM.default.b) :=
  ⟨by norm_num [veh6e, veh6l],
    emergency_brake_on_overlap IDM.default veh6e veh6l (by norm_num [veh6e, veh6l])⟩

/-- C7 (code bug): the claim describes the intended numeric-fault policy,
but the code is not total.  With `v0 = 0` and a leader at positive gap the
expression `(ego.velocity / self.v0) ** self.delta` at `model.py` line 93
raises `ZeroDivisionError`; the surrounding handler catches only
`FloatingPointError` (which plain Python float division never raises), so
the exception escapes instead of the free-flow term being taken as 0 or the
result falling back to `-b`. -/
theorem v0_zero_raises :
    pz5.calculate_acceleration ego7 (some lead7) = .error .zeroDivisionError := by
  norm_num [IDM.calculate_acceleration, pz5, ego7, lead7]

/-! ### Leader lookup and the update refinement -/

/-- C9: the read-phase leader scan (`simulation.py` lines 104-112) returns
`none` exactly when no vehicle is strictly ahead of the ego, and otherwise
an index of a vehicle of the collection strictly ahead of the ego whose
positive gap `other.position - ego.position` is minimal among all vehicles
strictly ahead. -/
theorem findLeaderIdx_correct (vs : List Vehicle) (car : Vehicle) :
    (findLeaderIdx vs car = none ↔ ∀ v ∈ vs, ¬ car.position < v.position) ∧
    (∀ j, findLeaderIdx vs car = some j →
      ∃ l, vs.get? j = some l ∧ car.position < l.position ∧
        ∀ v ∈ vs, car.position < v.position →
          l.position - car.position ≤ v.position - car.position) := by
  refine ⟨findLeaderIdx_none_iff vs car, ?_⟩
  intro j hj
  obtain ⟨l, h1, h2, h3⟩ := findLeaderIdx_some_spec vs car j hj
  exact ⟨l, h1, h2, fun v hv hvpos => by linarith [h3 v hv hvpos]⟩

lemma findLeaderIdx_pair_eval :
    findLeaderIdx [veh9a, veh9b] veh9a = some 1 := by
  norm_num [findLeaderIdx, findLeaderAux, List.enum, List.enumFrom, veh9a, veh9b]

theorem findLeaderIdx_correct_witness :
    findLeaderIdx [veh9a, veh9b] veh9a = some 1 ∧
    ∃ l, [veh9a, veh9b].get? 1 = some l ∧ veh9a.position < l.position ∧
      ∀ v ∈ [veh9a, veh9b], veh9a.position < v.position →
        l.position - veh9a.position ≤ v.position - veh9a.position :=
  ⟨findLeaderIdx_pair_eval,
    (findLeaderIdx_correct [veh9a, veh9b] veh9a).2 1 findLeaderIdx_pair_eval⟩

/-- C10: when the anti-overtake clamp does not bind (the floored
displacement does not exceed the gap to the leader, or there is no leader),
the inline write-phase integration of `simulation.py` lines 128-146 performs
exactly the state transition of `Vehicle.update` (`model.py` lines 22-47):
velocity `max(old_v + a*dt, 0)`, position incremented by
`max(old_v*dt + 0.5*a*dt^2, 0)`, the acceleration field set to `a`, and
`vehicle_id` and `mass` unchanged. -/
theorem writeCar_refines_update (dt : ℝ) (vs : List Vehicle) (car : Vehicle) (a : ℝ)
    (lead : Option ℕ)
    (hnc : ∀ j l, lead = some j → vs.get? j = some l →
      (if car.velocity * dt + 0.5 * a * dt ^ 2 < 0 then 0
        else car.velocity * dt + 0.5 * a * dt ^ 2) ≤ l.position - car.position - 5) :
    writeCar dt vs car a lead = car.update a dt := by
  cases lead with
  | none => simp [writeCar, Vehicle.update]
  | some j =>
      cases hg : vs.get? j with
      | none =>
          have hg' : vs[j]? = none := by simpa [List.get?_eq_getElem?] using hg
          simp [writeCar, Vehicle.update, hg']
      | some l =>
          have hg' : vs[j]? = some l := by simpa [List.get?_eq_getElem?] using hg
          have h := hnc j l rfl hg
          have h2 : ¬ ((if car.velocity * dt + 0.5 * a * dt ^ 2 < 0 then (0:ℝ)
              else car.velocity * dt + 0.5 * a * dt ^ 2) > l.position - car.position - 5) :=
            not_lt.mpr h
          simp [writeCar, Vehicle.update, hg', h2]

theorem writeCar_refines_update_witness :
    writeCar 1 [] car10 1 none = car10.update 1 1 ∧
    (car10.update 1 1).position = 5.5 ∧ (car10.update 1 1).velocity = 3 :=
  ⟨writeCar_refines_update 1 [] car10 1 none (by intro j l hj _; cases hj),
    by norm_num [Vehicle.update, car10], by norm_num [Vehicle.update, car10]⟩

/-- C4, amended: the displacement actually added to a vehicle in the write
phase is nonnegative provided the vehicle has no leader or its write-time
gap `lead.position - car.position - 5` is nonnegative.  (When that gap is
negative — pre-existing bumper overlap — the clamp `dx = gap` of
`simulation.py` lines 140-141 applies a negative displacement and the
vehicle moves backwards, as the counterexample shows.) -/
theorem writeCar_position_nondecreasing (dt : ℝ) (vs : List Vehicle) (car : Vehicle) (a : ℝ)
    (lead : Option ℕ)
    (hgap : ∀ j l, lead = some j → vs.get? j = some l → 0 ≤ l.position - car.position - 5) :
    car.position ≤ (writeCar dt vs car a lead).position := by
  cases lead with
  | none => exact writeCar_position_none dt vs car a
  | some j =>
      cases hg : vs.get? j with
      | none =>
          have heq : writeCar dt vs car a (some j) = writeCar dt vs car a none := by
            have hg' : vs[j]? = none := by simpa [List.get?_eq_getElem?] using hg
            simp [writeCar, hg']
          rw [heq]
          exact writeCar_position_none dt vs car a
      | some l => exact (writeCar_position_some dt vs car a j l hg (hgap j l rfl hg)).1

theorem writeCar_position_nondecreasing_witness :
    car10.position ≤ (writeCar 1 [] car10 1 none).position ∧
    (writeCar 1 [] car10 1 none).position = 5.5 :=
  ⟨writeCar_position_nondecreasing 1 [] car10 1 none (by intro j l hj _; cases hj),
    by norm_num [writeCar, car10]⟩

/-! ### Every recorded velocity is nonnegative -/

lemma writeLoop_data_vel (dt t : ℝ) :
    ∀ (jobs : List (ℕ × ℝ × Option ℕ)) (vs : List Vehicle) (data : List SnapshotRecord),
      (∀ r ∈ data, 0 ≤ r.v) → ∀ r ∈ (writeLoop dt t jobs vs data).2, 0 ≤ r.v := by
  intro jobs
  induction jobs with
  | nil =>
      intro vs data h r hr
      exact h r (by simpa [writeLoop] using hr)
  | cons x rest ih =>
      intro vs data h r hr
      cases hvx : vs.get? x.1 with
      | none =>
          rw [show writeLoop dt t (x :: rest) vs data = writeLoop dt t rest vs data by
            simp only [writeLoop, hvx]] at hr
          exact ih vs data h r hr
      | some car =>
          rw [show writeLoop dt t (x :: rest) vs data =
              writeLoop dt t rest (vs.set x.1 (writeCar dt vs car x.2.1 x.2.2))
                (data ++ [⟨t, (writeCar dt vs car x.2.1 x.2.2).vehicle_id,
                  (writeCar dt vs car x.2.1 x.2.2).position, 0,
                  (writeCar dt vs car x.2.1 x.2.2).velocity,
                  (writeCar dt vs car x.2.1 x.2.2).acceleration,
                  (writeCar dt vs car x.2.1 x.2.2).mass⟩]) by
            simp only [writeLoop, hvx]] at hr
          refine ih _ _ ?_ r hr
          intro r2 hr2
          rcases List.mem_append.mp hr2 with h2 | h2
          · exact h r2 h2
          · have : r2 = ⟨t, (writeCar dt vs car x.2.1 x.2.2).vehicle_id,
                (writeCar dt vs car x.2.1 x.2.2).position, 0,
                (writeCar dt vs car x.2.1 x.2.2).velocity,
                (writeCar dt vs car x.2.1 x.2.2).acceleration,
                (writeCar dt vs car x.2.1 x.2.2).mass⟩ := by simpa using h2
            rw [this]
            exact writeCar_velocity_nonneg dt vs car x.2.1 x.2.2

lemma runFrom_data_vel (p : IDM) (dt : ℝ) :
    ∀ (n k : ℕ) (st : List Vehicle × List SnapshotRecord),
      (∀ r ∈ st.2, 0 ≤ r.v) → ∀ r ∈ (runFrom p dt k n st).2, 0 ≤ r.v := by
  intro n
  induction n with
  | zero =>
      intro k st h r hr
      exact h r (by simpa [runFrom] using hr)
  | succ n ih =>
      intro k st h r hr
      rw [show runFrom p dt k (n + 1) st =
          runFrom p dt (k + 1) n (simStep p dt ((k : ℝ) * dt) st.1 st.2) from rfl] at hr
      refine ih (k + 1) _ ?_ r hr
      intro r2 hr2
      exact writeLoop_data_vel dt ((k : ℝ) * dt) (readPhase p st.1) st.1 st.2 h r2 hr2

/-- C3: for every run (any configuration and any initial speed draws) and
every snapshot record appended by the simulation loop, the recorded velocity
is nonnegative: each record stores `new_v`, which `simulation.py` lines
130-132 floor at `0`. -/
theorem run_records_velocity_nonneg (cfg : TrafficSimulation) (vs vs' : List Vehicle)
    (data' : List SnapshotRecord)
    (h : cfg.run vs = .ok (vs', data')) : ∀ r ∈ data', 0 ≤ r.v := by
  unfold TrafficSimulation.run at h
  by_cases hdt : cfg.dt = 0
  · simp [hdt] at h
  · rw [if_neg hdt] at h
    have h2 := Except.ok.inj h
    intro r hr
    exact runFrom_data_vel IDM.default cfg.dt (pyInt (cfg.sim_time / cfg.dt)).toNat 0
      (vs, []) (by simp) r (by rw [h2]; exact hr)

/-! ### Evaluation of the acceleration law at the scenario inputs -/

lemma freeAccel_default_vzero (c : Vehicle) (h : c.velocity = 0) :
    IDM.default.freeAccel c = 1 := by
  simp only [IDM.freeAccel, IDM.term1, IDM.clamp, IDM.default, h]
  norm_num

lemma freeAccel_default_v30 (c : Vehicle) (h : c.velocity = 30) :
    IDM.default.freeAccel c = 0 := by
  simp only [IDM.freeAccel, IDM.term1, IDM.clamp, IDM.default, h]
  norm_num

lemma followAccel_default_v30_gap1 (c : Vehicle) (h : c.velocity = 30) :
    IDM.default.followAccel c 1 0 = -1.5 := by
  simp only [IDM.followAccel, IDM.s_star, IDM.term1, IDM.clamp, IDM.default, h]
  rw [show (30:ℝ)/30 = 1 by norm_num, Real.one_rpow]
  norm_num [max_def, min_def]

lemma readPhase3_eval : readPhase IDM.default vehs3 = [(0, 1, none)] := by
  norm_num [readPhase, vehs3, List.enum, List.enumFrom, findLeaderIdx, findLeaderAux,
    IDM.accelValue, IDM.freeAccel, IDM.term1, IDM.clamp, IDM.default, max_def, min_def]
lemma step3_eval : simStep IDM.default 1 0 vehs3 [] = (vehs3', data3') := by
  rw [simStep, readPhase3_eval]
  norm_num [writeLoop, writeCar, vehs3, vehs3', data3']
lemma run3_eval : TrafficSimulation.run cfg3 vehs3 = .ok (vehs3', data3') := by
  unfold TrafficSimulation.run
  have h1 : cfg3.dt = 1 := by norm_num [cfg3]
  have h2 : cfg3.sim_time = 1 := by norm_num [cfg3]
  rw [h1, h2, if_neg (by norm_num : ¬ (1:ℝ) = 0)]
  have hsteps : (pyInt ((1:ℝ) / 1)).toNat = 1 := by norm_num [pyInt]
  rw [hsteps]
  refine congrArg Except.ok ?_
  simp only [runFrom, Nat.cast_zero, zero_mul]
  exact step3_eval
lemma readPhase1_eval : readPhase IDM.default vehs1 = [(0, -1.5, some 1), (1, 1, none)] := by
  norm_num [readPhase, vehs1, List.enum, List.enumFrom, findLeaderIdx, findLeaderAux,
    List.get?, IDM.accelValue, IDM.freeAccel, IDM.term1, IDM.clamp, IDM.default,
    max_def, min_def]

lemma step1_eval : simStep IDM.default 1 0 vehs1 [] = (vehs1', data1') := by
  rw [simStep, readPhase1_eval]
  norm_num [writeLoop, writeCar, List.get?, List.set, vehs1, vehs1', data1', max_def, min_def]

lemma readPhase2_eval : readPhase IDM.default vehs2 = [(0, -1.5, some 1), (1, 0, none)] := by
  norm_num [readPhase, vehs2, List.enum, List.enumFrom, findLeaderIdx, findLeaderAux,
    List.get?, IDM.accelValue, IDM.followAccel, IDM.s_star, IDM.freeAccel, IDM.term1,
    IDM.clamp, IDM.default, max_def, min_def]

lemma step2_eval : simStep IDM.default 1 0 vehs2 [] = (vehs2', data2') := by
  rw [simStep, readPhase2_eval]
  norm_num [writeLoop, writeCar, List.get?, List.set, vehs2, vehs2', vehA2', vehB2',
    data2', max_def, min_def]

lemma readPhase4_eval : readPhase IDM.default vehs4 = [(0, -1.5, some 1), (1, 1, none)] := by
  norm_num [readPhase, vehs4, List.enum, List.enumFrom, findLeaderIdx, findLeaderAux,
    List.get?, IDM.accelValue, IDM.freeAccel, IDM.term1, IDM.clamp, IDM.default,
    max_def, min_def]

lemma step4_eval : simStep IDM.default 1 0 vehs4 [] = (vehs4', data4') := by
  rw [simStep, readPhase4_eval]
  norm_num [writeLoop, writeCar, List.get?, List.set, vehs4, vehs4', data4', max_def, min_def]

lemma run1_eval : TrafficSimulation.run cfg1 vehs1 = .ok (vehs1', data1') := by
  unfold TrafficSimulation.run
  have h1 : cfg1.dt = 1 := by norm_num [cfg1]
  have h2 : cfg1.sim_time = 1 := by norm_num [cfg1]
  rw [h1, h2, if_neg (by norm_num : ¬ (1:ℝ) = 0)]
  have hsteps : (pyInt ((1:ℝ) / 1)).toNat = 1 := by norm_num [pyInt]
  rw [hsteps]
  refine congrArg Except.ok ?_
  simp only [runFrom, Nat.cast_zero, zero_mul]
  exact step1_eval

lemma run2_eval : TrafficSimulation.run cfg2 vehs2 = .ok (vehs2', data2') := by
  unfold TrafficSimulation.run
  have h1 : cfg2.dt = 1 := by norm_num [cfg2]
  have h2 : cfg2.sim_time = 1 := by norm_num [cfg2]
  rw [h1, h2, if_neg (by norm_num : ¬ (1:ℝ) = 0)]
  have hsteps : (pyInt ((1:ℝ) / 1)).toNat = 1 := by norm_num [pyInt]
  rw [hsteps]
  refine congrArg Except.ok ?_
  simp only [runFrom, Nat.cast_zero, zero_mul]
  exact step2_eval

lemma run4_eval : TrafficSimulation.run cfg4 vehs4 = .ok (vehs4', data4') := by
  unfold TrafficSimulation.run
  have h1 : cfg4.dt = 1 := by norm_num [cfg4]
  have h2 : cfg4.sim_time = 1 := by norm_num [cfg4]
  rw [h1, h2, if_neg (by norm_num : ¬ (1:ℝ) = 0)]
  have hsteps : (pyInt ((1:ℝ) / 1)).toNat = 1 := by norm_num [pyInt]
  rw [hsteps]
  refine congrArg Except.ok ?_
  simp only [runFrom, Nat.cast_zero, zero_mul]
  exact step4_eval

lemma init1_eval : TrafficSimulation.initialize_vehicles cfg1 draw0 draw0 = .ok vehs1 := by
  norm_num [TrafficSimulation.initialize_vehicles, cfg1, draw0, vehs1, List.range_succ,
    List.enum, List.enumFrom]

lemma init2_eval : TrafficSimulation.initialize_vehicles cfg2 draw30 draw30 = .ok vehs2 := by
  norm_num [TrafficSimulation.initialize_vehicles, cfg2, draw30, vehs2, List.range_succ,
    List.enum, List.enumFrom]

lemma init3_eval : TrafficSimulation.initialize_vehicles cfg3 draw0 draw0 = .ok vehs3 := by
  norm_num [TrafficSimulation.initialize_vehicles, cfg3, draw0, vehs3, List.range_succ,
    List.enum, List.enumFrom]

lemma init4_eval : TrafficSimulation.initialize_vehicles cfg4 draw0 draw0 = .ok vehs4 := by
  norm_num [TrafficSimulation.initialize_vehicles, cfg4, draw0, vehs4, List.range_succ,
    List.enum, List.enumFrom]

lemma init8_eval : TrafficSimulation.initialize_vehicles cfg8 draw0 draw0 = .ok vehs8 := by
  norm_num [TrafficSimulation.initialize_vehicles, cfg8, draw0, vehs8, List.range_succ,
    List.enum, List.enumFrom]

lemma run8_eval : TrafficSimulation.run cfg8 vehs8 = .ok (vehs8, []) := by
  unfold TrafficSimulation.run
  rw [if_neg (by norm_num [cfg8] : ¬ cfg8.dt = 0)]
  have hratio : cfg8.sim_time / cfg8.dt = -600 := by norm_num [cfg8]
  rw [hratio]
  rw [show pyInt (-600 : ℝ) = -600 by norm_num [pyInt]]
  rfl

lemma fl1a : findLeaderIdx vehs1 ⟨0, 0, 0, 0, 1500⟩ = some 1 := by
  norm_num [findLeaderIdx, findLeaderAux, vehs1, List.enum, List.enumFrom]

lemma fl2a : findLeaderIdx vehs2 ⟨0, 0, 30, 0, 1500⟩ = some 1 := by
  norm_num [findLeaderIdx, findLeaderAux, vehs2, List.enum, List.enumFrom]

lemma fl2b : findLeaderIdx vehs2 ⟨1, 6, 30, 0, 1500⟩ = none := by
  norm_num [findLeaderIdx, findLeaderAux, vehs2, List.enum, List.enumFrom]

/-! ### Configuration errors -/

lemma pyInt_nonpos (x : ℝ) (h : x ≤ 0) : pyInt x ≤ 0 := by
  unfold pyInt
  split
  · rename_i hx
    have : (0:ℤ) ≤ ⌊-x⌋ := Int.floor_nonneg.mpr (by linarith)
    omega
  · rename_i hx
    have hx0 : x = 0 := le_antisymm h (not_lt.mp hx)
    rw [hx0]
    norm_num

/-- C8, amended: an unknown distribution kind or a non-positive vehicle
count raises `ValueError` in `_initialize_vehicles`, before any simulation
step, so no snapshot record is produced; `dt = 0` raises
`ZeroDivisionError` at the start of `run()` (in `int(sim_time / dt)`),
before any step; but a **negative** `dt` raises no error at all: with
`sim_time ≥ 0`, `int(sim_time / dt) ≤ 0`, `range` is empty, and `run()`
returns silently with zero steps and an empty record list. -/
theorem config_fail_fast :
    (∀ (cfg : TrafficSimulation) (pd vd : ℕ → ℝ), cfg.num_vehicles ≤ 0 →
      cfg.initialize_vehicles pd vd = .error .valueError) ∧
    (∀ (cfg : TrafficSimulation) (pd vd : ℕ → ℝ), cfg.distribution ≠ "uniform" →
      cfg.distribution ≠ "normal" → cfg.initialize_vehicles pd vd = .error .valueError) ∧
    (∀ (cfg : TrafficSimulation) (vs : List Vehicle), cfg.dt = 0 →
      cfg.run vs = .error .zeroDivisionError) ∧
    (∀ (cfg : TrafficSimulation) (vs : List Vehicle), cfg.dt < 0 → 0 ≤ cfg.sim_time →
      cfg.run vs = .ok (vs, [])) := by
  refine ⟨?_, ?_, ?_, ?_⟩
  · intro cfg pd vd h
    simp [TrafficSimulation.initialize_vehicles, h]
  · intro cfg pd vd h1 h2
    by_cases h0 : cfg.num_vehicles ≤ 0
    · simp [TrafficSimulation.initialize_vehicles, h0]
    · simp [TrafficSimulation.initialize_vehicles, h0, h1, h2]
  · intro cfg vs h
    simp [TrafficSimulation.run, h]
  · intro cfg vs hdt hst
    have hne : ¬ cfg.dt = 0 := ne_of_lt hdt
    have hratio : cfg.sim_time / cfg.dt ≤ 0 :=
      div_nonpos_of_nonneg_of_nonpos hst (le_of_lt hdt)
    have htn : (pyInt (cfg.sim_time / cfg.dt)).toNat = 0 :=
      Int.toNat_of_nonpos (pyInt_nonpos _ hratio)
    unfold TrafficSimulation.run
    rw [if_neg hne, htn]
    rfl

/-- C8, counterexample: the legal configuration `cfg8` with `dt = -0.1`
initializes fine and `run()` raises no error: it returns with the vehicles
untouched and an empty record list, so the system does not "fail fast with
an error" for this non-positive `dt`. -/
theorem config_fail_fast_cex :
    TrafficSimulation.initialize_vehicles cfg8 draw0 draw0 = .ok vehs8 ∧
    cfg8.dt < 0 ∧
    TrafficSimulation.run cfg8 vehs8 = .ok (vehs8, []) :=
  ⟨init8_eval, by norm_num [cfg8], run8_eval⟩

theorem config_fail_fast_witness :
    TrafficSimulation.initialize_vehicles cfg8bad draw0 draw0 = .error .valueError ∧
    TrafficSimulation.run cfg8zero vehs8 = .error .zeroDivisionError :=
  ⟨config_fail_fast.2.1 cfg8bad draw0 draw0 (by decide) (by decide),
    config_fail_fast.2.2.1 cfg8zero vehs8 (by norm_num [cfg8zero])⟩

/-! ### Counterexamples from concrete runs, and the remaining witnesses -/

/-- C1, counterexample: in the legal run `cfg1` (two vehicles 4.5 m apart,
both at speed 0, one step) vehicle 0 has vehicle 1 as its read-phase leader,
and after the write phase sits at `-0.5` while the leader sits at `5`;
`-0.5 ≤ 5 - s0 - car_length = -2` is false, so the claimed invariant with
the `s0 = 2` margin does not hold. -/
theorem simStep_no_overlap_cex :
    TrafficSimulation.initialize_vehicles cfg1 draw0 draw0 = .ok vehs1 ∧
    findLeaderIdx vehs1 ⟨0, 0, 0, 0, 1500⟩ = some 1 ∧
    TrafficSimulation.run cfg1 vehs1 = .ok (vehs1', data1') ∧
    vehs1'.get? 0 = some ⟨0, -0.5, 0, -1.5, 1500⟩ ∧
    vehs1'.get? 1 = some ⟨1, 5, 1, 1, 1500⟩ ∧
    ¬ ((-0.5 : ℝ) ≤ 5 - 2 - 5) :=
  ⟨init1_eval, fl1a, run1_eval, rfl, rfl, by norm_num⟩

theorem simStep_no_overlap_witness :
    (simStep IDM.default 1 0 vehs2 []).1.get? 0 = some vehA2' ∧
    (simStep IDM.default 1 0 vehs2 []).1.get? 1 = some vehB2' ∧
    vehA2'.position ≤ vehB2'.position - 5 := by
  have h1 : (simStep IDM.default 1 0 vehs2 []).1.get? 0 = some vehA2' := by
    rw [step2_eval]
    rfl
  have h2 : (simStep IDM.default 1 0 vehs2 []).1.get? 1 = some vehB2' := by
    rw [step2_eval]
    rfl
  refine ⟨h1, h2, ?_⟩
  refine simStep_no_overlap IDM.default 1 0 vehs2 [] ?_ 0 1 ⟨0, 0, 30, 0, 1500⟩ vehA2' vehB2'
    rfl fl2a h1 h2
  intro i j ci cj hi hlead hj
  match i, hi with
  | 0, hi =>
      have hci : ci = ⟨0, 0, 30, 0, 1500⟩ :=
        (Option.some.inj ((rfl : vehs2.get? 0 = some ⟨0, 0, 30, 0, 1500⟩).symm.trans hi)).symm
      subst hci
      have hj1 : j = 1 := (Option.some.inj (fl2a.symm.trans hlead)).symm
      subst hj1
      have hcj : cj = ⟨1, 6, 30, 0, 1500⟩ :=
        (Option.some.inj ((rfl : vehs2.get? 1 = some ⟨1, 6, 30, 0, 1500⟩).symm.trans hj)).symm
      subst hcj
      norm_num
  | 1, hi =>
      have hci : ci = ⟨1, 6, 30, 0, 1500⟩ :=
        (Option.some.inj ((rfl : vehs2.get? 1 = some ⟨1, 6, 30, 0, 1500⟩).symm.trans hi)).symm
      subst hci
      exact absurd (fl2b.symm.trans hlead) (by simp)
  | Nat.succ (Nat.succ n), hi =>
      exact absurd hi (by simp [vehs2])

/-- C2, amended: when the computed (floored) displacement exceeds the
write-time gap, the clamp clips only the position: the committed position is
exactly `lead.position - 5` (the write-time leader position, without the
`s0` margin), while the committed velocity remains `max(old_v + a*dt, 0)`
and the committed acceleration remains `a` — neither is clipped to the
leader's velocity nor zeroed. -/
theorem clamp_clips_only_position (dt : ℝ) (vs : List Vehicle) (car : Vehicle) (a : ℝ)
    (j : ℕ) (l : Vehicle) (hl : vs.get? j = some l)
    (hbind : (if car.velocity * dt + 0.5 * a * dt ^ 2 < 0 then (0:ℝ)
        else car.velocity * dt + 0.5 * a * dt ^ 2) > l.position - car.position - 5) :
    writeCar dt vs car a (some j) =
      ⟨car.vehicle_id, l.position - 5,
        if car.velocity + a * dt < 0 then 0 else car.velocity + a * dt, a, car.mass⟩ := by
  have hg' : vs[j]? = some l := by simpa [List.get?_eq_getElem?] using hl
  simp [writeCar, hg', hbind]
  ring

/-- C2, counterexample: in the run `cfg2` the follower's floored
displacement `29.25` exceeds the gap `1`, the clamp binds (the follower is
clipped to `6 - 5 = 1`), yet the recorded acceleration is `-1.5` (not `0`)
and the recorded velocity is the unclamped `30 - 1.5 = 28.5`. -/
theorem clamp_clips_only_position_cex :
    TrafficSimulation.initialize_vehicles cfg2 draw30 draw30 = .ok vehs2 ∧
    TrafficSimulation.run cfg2 vehs2 = .ok (vehs2', data2') ∧
    data2'.get? 0 = some ⟨0, 0, 1, 0, 28.5, -1.5, 1500⟩ ∧
    ¬ ((-1.5 : ℝ) = 0) :=
  ⟨init2_eval, run2_eval, rfl, by norm_num⟩

theorem clamp_clips_only_position_witness :
    writeCar 1 vehs2 ⟨0, 0, 30, 0, 1500⟩ (-1.5) (some 1) = ⟨0, 1, 28.5, -1.5, 1500⟩ := by
  have h := clamp_clips_only_position 1 vehs2 ⟨0, 0, 30, 0, 1500⟩ (-1.5) 1 ⟨1, 6, 30, 0, 1500⟩
    rfl (by norm_num)
  rw [h]
  norm_num

/-- C4, counterexample: in the legal run `cfg4` (two vehicles 4 m apart,
speeds 0) the follower's write-time gap is `-1`; the clamp sets `dx = -1`
and the vehicle moves backwards from `0` to `-1`, so the applied
displacement is negative and the position decreases. -/
theorem writeCar_position_nondecreasing_cex :
    TrafficSimulation.initialize_vehicles cfg4 draw0 draw0 = .ok vehs4 ∧
    vehs4.get? 0 = some ⟨0, 0, 0, 0, 1500⟩ ∧
    TrafficSimulation.run cfg4 vehs4 = .ok (vehs4', data4') ∧
    vehs4'.get? 0 = some ⟨0, -1, 0, -1.5, 1500⟩ ∧
    ¬ ((0:ℝ) ≤ -1) :=
  ⟨init4_eval, rfl, run4_eval, rfl, by norm_num⟩

theorem run_records_velocity_nonneg_witness :
    TrafficSimulation.run cfg3 vehs3 = .ok (vehs3', data3') ∧
    ∀ r ∈ data3', 0 ≤ r.v :=
  ⟨run3_eval, run_records_velocity_nonneg cfg3 vehs3 vehs3' data3' run3_eval⟩
